import Mathlib

/-!
Verification development for the Hyperbridge TVL adapters
(src/projects/hyperbridge/index.js, called variant 1 below, and
src/unnamed/part_000, called variant 2 below).

Modelling conventions:
* JavaScript numbers are modelled as exact rationals (`ℚ`); `Math.floor`
  is `Int.floor`; decimal literals such as `0.7` are modelled by their
  decimal value `7/10`.
* GraphQL chain-stat ids such as "EVM-1" and teleport `sourceChain` /
  `destChain` fields are modelled by the parsed numeric chain id (a `Nat`),
  abstracting `parseInt` / the `'EVM-'` strip.
* The external `ADDRESSES[chain]` registry is modelled by a chain context
  carrying the optional USDC / USDT / DAI / WETH addresses for the chain.
* The fetch layer is modelled by a `FetchResult`; every error branch of
  `getHyperbridgeTVL` returns `null`, modelled as `none`.
* `api.add` / `api.addToken` report calls are collected into a list of
  (token address, raw integer amount) pairs; delegation to the
  contract-balance fallback (`fallbackContractTVL`) is the `fallback`
  outcome.
-/

/-- One `hyperBridgeChainStats` record: `id` (parsed numeric chain id) and
`totalTransfersIn` (parsed as a number). -/
structure ChainStat where
  chainId : Nat
  totalTransfersIn : ℚ
deriving Repr, DecidableEq

/-- One `tokenGatewayAssetTeleporteds` record: `assetId`, `amount`,
`sourceChain`, `destChain` (chain ids parsed as integers). -/
structure Teleport where
  assetId : String
  amount : ℚ
  sourceChain : Nat
  destChain : Nat
deriving Repr, DecidableEq

/-- The parsed GraphQL response body: the two edge lists. -/
structure FetchData where
  chainStats : List ChainStat
  teleports : List Teleport
deriving Repr, DecidableEq

/-- Outcome of one fetch attempt, as seen by `getHyperbridgeTVL`. -/
inductive FetchResult where
  | success (d : FetchData)
  | transportError
  | httpError (status : Nat)
  | graphqlErrors
deriving Repr, DecidableEq

/-- Execution context supplied by the SDK: the current chain name and the
optional stablecoin / WETH addresses from the `ADDRESSES` registry. -/
structure ChainCtx where
  chain : String
  usdc : Option String
  usdt : Option String
  dai : Option String
  weth : Option String
deriving Repr, DecidableEq

/-- Result of one adapter invocation after the fetch: either a list of
direct report calls (token address, raw integer amount) issued to the
aggregation helper, or delegation to `fallbackContractTVL`. -/
inductive Outcome where
  | report (calls : List (String × Int))
  | fallback
deriving Repr, DecidableEq

/-- The direct report calls issued by an outcome (none on the fallback
path, whose balance lookups are delegated, not directly reported). -/
def directCalls : Outcome → List (String × Int)
  | Outcome.report cs => cs
  | Outcome.fallback => []

/-- `CHAIN_ID_MAP`: the static chain-id-to-name table, identical in both
adapter files. Unmapped ids give `none` (JS `undefined`). -/
def CHAIN_ID_MAP : Nat → Option String
  | 1 => some "ethereum"
  | 10 => some "optimism"
  | 56 => some "bsc"
  | 100 => some "xdai"
  | 137 => some "polygon"
  | 1868 => some "soneium"
  | 8453 => some "base"
  | 42161 => some "arbitrum"
  | 1301 => some "unichain"
  | _ => none

/-- The constant `1e18` used for normalization. -/
def E18 : ℚ := 10 ^ 18

/-- Variant 1, lines 108–120: `totalNetworkValue` accumulates
`transfersIn / 1e18` for every chain stat, mapped or not. -/
def totalNetworkValue (stats : List ChainStat) : ℚ :=
  stats.foldl (fun acc s => acc + s.totalTransfersIn / E18) 0

/-- Variant 1, lines 126–147: `totalTeleportValue` accumulates
`amount / 1e18` for every teleport record. -/
def totalTeleportValue_v1 (ts : List Teleport) : ℚ :=
  ts.foldl (fun acc t => acc + t.amount / E18) 0

/-- Variant 1, lines 160–173: `chainTeleportValue` accumulates
`amount / 1e18` over teleports whose mapped source-chain name or mapped
destination-chain name equals `api.chain`. -/
def chainTeleportValue (ts : List Teleport) (chain : String) : ℚ :=
  ts.foldl
    (fun acc t =>
      if CHAIN_ID_MAP t.sourceChain = some chain ∨
          CHAIN_ID_MAP t.destChain = some chain then
        acc + t.amount / E18
      else acc) 0

/-- Variant 1, lines 184–187: `chainStats.find(...)` selecting the first
stat whose mapped chain name equals `api.chain`. -/
def findChainStat (stats : List ChainStat) (chain : String) : Option ChainStat :=
  stats.find? (fun s => CHAIN_ID_MAP s.chainId = some chain)

/-- Variant 1, lines 190–195: the proportional value
`totalTeleportValue * (chainNetworkValue / totalNetworkValue)`, with the
division guarded by `totalNetworkValue > 0` (otherwise the proportion
is 0). -/
def chainProportionalValue_v1 (d : FetchData) (stat : ChainStat) : ℚ :=
  let tnv := totalNetworkValue d.chainStats
  let cnv := stat.totalTransfersIn / E18
  totalTeleportValue_v1 d.teleports * (if tnv > 0 then cnv / tnv else 0)

/-- `optCall addr amt`: the report calls of one `if (address) api.add(...)`
block — one call when the address is present, none otherwise. -/
def optCall (addr : Option String) (amt : Int) : List (String × Int) :=
  match addr with
  | some a => [(a, amt)]
  | none => []

/-- Variant 1, lines 218–255: `addTokensToAPI` — 70% USDC (6 decimals),
20% USDT (6 decimals), 10% DAI (18 decimals) for whichever are present;
when none of the three stablecoins exist, a single WETH allocation
`floor(usdValue / 2500 * 1e18)`. -/
def addTokensToAPI_v1 (ctx : ChainCtx) (usdValue : ℚ) : List (String × Int) :=
  optCall ctx.usdc (Int.floor (usdValue * (7 / 10) * 10 ^ 6)) ++
  optCall ctx.usdt (Int.floor (usdValue * (2 / 10) * 10 ^ 6)) ++
  optCall ctx.dai (Int.floor (usdValue * (1 / 10) * 10 ^ 18)) ++
  (if ctx.usdc = none ∧ ctx.usdt = none ∧ ctx.dai = none then
    optCall ctx.weth (Int.floor (usdValue / 2500 * 10 ^ 18))
  else [])

/-- Variant 1, lines 89–215: `calculateTVLFromAPI`. `none` models both a
failed fetch and a response without `hyperBridgeChainStats`. -/
def calculateTVLFromAPI_v1 (ctx : ChainCtx) (data : Option FetchData) : Outcome :=
  match data with
  | none => Outcome.fallback
  | some d =>
    let ctv := chainTeleportValue d.teleports ctx.chain
    if ctv > 100 then
      Outcome.report (addTokensToAPI_v1 ctx ctv)
    else
      match findChainStat d.chainStats ctx.chain with
      | some stat =>
        if totalTeleportValue_v1 d.teleports > 0 then
          let pv := chainProportionalValue_v1 d stat
          if pv > 1 then Outcome.report (addTokensToAPI_v1 ctx pv)
          else Outcome.fallback
        else Outcome.fallback
      | none => Outcome.fallback

/-- Variant 1 fetch: `post` either yields the parsed data or throws; the
catch block converts every error into `null` (`none`). A response whose
`data` is missing (e.g. a GraphQL error response) is likewise treated as
no data by the caller. -/
def getHyperbridgeTVL_v1 : FetchResult → Option FetchData
  | FetchResult.success d => some d
  | FetchResult.transportError => none
  | FetchResult.httpError _ => none
  | FetchResult.graphqlErrors => none

/-- Variant 1 adapter after one fetch attempt. -/
def tvlAdapter_v1 (ctx : ChainCtx) (r : FetchResult) : Outcome :=
  calculateTVLFromAPI_v1 ctx (getHyperbridgeTVL_v1 r)

/-! ### Variant 2 (src/unnamed/part_000) -/

/-- `startsWithChars pat s`: `s` starts with `pat` (character lists). -/
def startsWithChars : List Char → List Char → Bool
  | [], _ => true
  | _ :: _, [] => false
  | a :: as, b :: bs => a = b && startsWithChars as bs

/-- JS `String.prototype.includes`: `pat` occurs as a contiguous substring
of `s`. -/
def strContains (s pat : String) : Bool :=
  (List.range (s.length + 1)).any fun i => startsWithChars pat.toList (s.toList.drop i)

/-- Variant 2, line 133: the per-asset decimal count — 6 when the asset
key contains "USDC" or "USDT", 18 otherwise. -/
def assetDecimals_v2 (asset : String) : Nat :=
  if strContains asset "USDC" || strContains asset "USDT" then 6 else 18

/-- Insertion into the key list of a JS object: new keys are appended,
existing keys left in place (insertion order preserved). -/
def insertKey (ks : List String) (k : String) : List String :=
  if k ∈ ks then ks else ks ++ [k]

/-- Variant 2, lines 108–119: the keys of `assetMap` in insertion order.
The `ASSET_ID_MAP` lookup (`ASSET_ID_MAP[assetId] || assetId`) is the
identity: the table maps 'USDC'/'USDT'/'DAI' to themselves, so the group
key is always the raw `assetId`. -/
def assetKeys (ts : List Teleport) : List String :=
  ts.foldl (fun ks t => insertKey ks t.assetId) []

/-- Variant 2, lines 127–130: the summed raw amount of one asset group
(`assetMap[asset].reduce(...)`). -/
def groupAmount (ts : List Teleport) (a : String) : ℚ :=
  (ts.filter fun t => t.assetId = a).foldl (fun acc t => acc + t.amount) 0

/-- Variant 2, lines 122–138: `totalTeleportValue` accumulates, per asset
group, `totalAmount / 10^decimals` with the asset-dependent decimals. -/
def totalTeleportValue_v2 (ts : List Teleport) : ℚ :=
  (assetKeys ts).foldl
    (fun acc a => acc + groupAmount ts a / 10 ^ assetDecimals_v2 a) 0

/-- Replacement/append update of a JS object modelled as an association
list (later assignment to an existing key overwrites it in place). -/
def updateAssoc (m : List (String × ℚ)) (k : String) (v : ℚ) : List (String × ℚ) :=
  if m.any (fun p => p.1 = k) then
    m.map (fun p => if p.1 = k then (k, v) else p)
  else m ++ [(k, v)]

/-- Lookup with default (JS `obj[key] || 0`). -/
def lookupD (m : List (String × ℚ)) (k : String) (d : ℚ) : ℚ :=
  match m.find? (fun p => p.1 = k) with
  | some p => p.2
  | none => d

/-- Variant 2, lines 149–156: `chainTransferData` — only stats whose id is
in `CHAIN_ID_MAP` are recorded (`if (statChain)`), value
`totalTransfersIn / 1e18`. -/
def buildChainTransferData (stats : List ChainStat) : List (String × ℚ) :=
  stats.foldl
    (fun m s =>
      match CHAIN_ID_MAP s.chainId with
      | some name => updateAssoc m name (s.totalTransfersIn / E18)
      | none => m) []

/-- Variant 2, line 158: `totalNetworkTransfers` — the sum of the values
of `chainTransferData`. -/
def totalNetworkTransfers (stats : List ChainStat) : ℚ :=
  ((buildChainTransferData stats).map Prod.snd).foldl (fun acc v => acc + v) 0

/-- Variant 2, lines 184–208: `addTokensToAPI` — returns immediately when
`tvlAmount <= 0`; otherwise 100% USDC (6 decimals) when present, else
USDT (6 decimals), else DAI (18 decimals), else nothing. -/
def addTokensToAPI_v2 (ctx : ChainCtx) (tvlAmount : ℚ) : List (String × Int) :=
  if tvlAmount ≤ 0 then []
  else
    match ctx.usdc with
    | some a => [(a, Int.floor (tvlAmount * 10 ^ 6))]
    | none =>
      match ctx.usdt with
      | some a => [(a, Int.floor (tvlAmount * 10 ^ 6))]
      | none =>
        match ctx.dai with
        | some a => [(a, Int.floor (tvlAmount * 10 ^ 18))]
        | none => []

/-- Variant 2, lines 89–181: `calculateTVLFromAPI`. The proportional
branch runs only when `totalNetworkTransfers > 0 && chainTransfers > 0`;
otherwise the contract fallback is used. -/
def calculateTVLFromAPI_v2 (ctx : ChainCtx) (data : Option FetchData) : Outcome :=
  match data with
  | none => Outcome.fallback
  | some d =>
    let ttv := totalTeleportValue_v2 d.teleports
    let tnt := totalNetworkTransfers d.chainStats
    let ct := lookupD (buildChainTransferData d.chainStats) ctx.chain 0
    if tnt > 0 ∧ ct > 0 then
      Outcome.report (addTokensToAPI_v2 ctx (ttv * (ct / tnt)))
    else Outcome.fallback

/-- Variant 2 fetch, lines 32–86: a thrown transport error, a non-ok HTTP
status (`throw` then caught) and a GraphQL `errors` payload all yield
`null` (`none`). -/
def getHyperbridgeTVL_v2 : FetchResult → Option FetchData
  | FetchResult.success d => some d
  | FetchResult.transportError => none
  | FetchResult.httpError _ => none
  | FetchResult.graphqlErrors => none

/-- Variant 2 adapter after one fetch attempt. -/
def tvlAdapter_v2 (ctx : ChainCtx) (r : FetchResult) : Outcome :=
  calculateTVLFromAPI_v2 ctx (getHyperbridgeTVL_v2 r)

/-- USD value represented by one report call, read back through the chain
context: 6-decimal stablecoin amounts divided by 10^6, 18-decimal DAI by
10^18, WETH by 10^18 at the hardcoded 2500 USD/ETH price. -/
def tokenUSD (ctx : ChainCtx) (call : String × Int) : ℚ :=
  if ctx.usdc = some call.1 then (call.2 : ℚ) / 10 ^ 6
  else if ctx.usdt = some call.1 then (call.2 : ℚ) / 10 ^ 6
  else if ctx.dai = some call.1 then (call.2 : ℚ) / 10 ^ 18
  else if ctx.weth = some call.1 then (call.2 : ℚ) / 10 ^ 18 * 2500
  else 0

/-- The present stablecoin addresses of a chain context are pairwise
distinct (the `ADDRESSES` registry never assigns one address to two of
the tokens USDC, USDT, DAI on the same chain). -/
def ctxAddrsDistinct (ctx : ChainCtx) : Prop :=
  (ctx.usdt.isSome → ctx.usdt ≠ ctx.usdc) ∧
  (ctx.dai.isSome → ctx.dai ≠ ctx.usdc) ∧
  (ctx.dai.isSome → ctx.dai ≠ ctx.usdt)

instance (ctx : ChainCtx) : Decidable (ctxAddrsDistinct ctx) := by
  unfold ctxAddrsDistinct; infer_instance

/-- The (allocation percentage, token decimals) pairs used by variant 1's
allocator: 70% / 20% / 10% at 6, 6 and 18 decimals, and the WETH branch
pricing 100% of the estimate at the fixed 2500 USD/ETH (so the factor is
1/2500 at 18 decimals). -/
def allocationTable_v1 : List (ℚ × ℕ) :=
  [(7 / 10, 6), (2 / 10, 6), (1 / 10, 18), (1 / 2500, 18)]

/-- The (allocation percentage, token decimals) pairs used by variant 2's
allocator: 100% at 6 decimals (USDC or USDT) or at 18 decimals (DAI). -/
def allocationTable_v2 : List (ℚ × ℕ) :=
  [(1, 6), (1, 18)]

/-! ### Summation helper lemmas -/

/-- A `foldl` that adds `f x` at each step computes `init` plus the sum of
the mapped list. -/
theorem foldl_add_eq_sum {α : Type} (f : α → ℚ) (l : List α) (init : ℚ) :
    l.foldl (fun acc x => acc + f x) init = init + (l.map f).sum := by
  induction l generalizing init with
  | nil => simp
  | cons x xs ih => simp [ih, add_assoc]

/-- The accumulating loop of `chainTeleportValue`, for any initial value:
it adds the normalized amounts of exactly the involved events. -/
theorem chainTeleportValue_foldl (ts : List Teleport) (chain : String) (init : ℚ) :
    ts.foldl
      (fun acc t =>
        if CHAIN_ID_MAP t.sourceChain = some chain ∨
            CHAIN_ID_MAP t.destChain = some chain then
          acc + t.amount / E18
        else acc) init
      = init + ((ts.filter fun t =>
          decide (CHAIN_ID_MAP t.sourceChain = some chain ∨
            CHAIN_ID_MAP t.destChain = some chain)).map
            fun t => t.amount / E18).sum := by
  induction ts generalizing init with
  | nil => simp
  | cons t ts ih =>
    by_cases h : CHAIN_ID_MAP t.sourceChain = some chain ∨
        CHAIN_ID_MAP t.destChain = some chain
    · simp [h, ih, add_assoc]
    · simp [h, ih]

/-- `chainTeleportValue` is the sum of `amount / 1e18` over exactly the
events whose mapped source- or destination-chain name equals the target. -/
theorem chainTeleportValue_eq_sum (ts : List Teleport) (chain : String) :
    chainTeleportValue ts chain
      = ((ts.filter fun t =>
          decide (CHAIN_ID_MAP t.sourceChain = some chain ∨
            CHAIN_ID_MAP t.destChain = some chain)).map
            fun t => t.amount / E18).sum := by
  unfold chainTeleportValue
  rw [chainTeleportValue_foldl, zero_add]

/-! ### C4: direct-involvement sum -/

/-- C4: for every fixed list of teleport events and every target chain,
variant 1's direct-involvement sum (`chainTeleportValue`) equals the sum
of `amount / 1e18` over exactly those events whose mapped source-chain
name or mapped destination-chain name equals the target chain, and the
value is unchanged under any permutation of the event list. -/
theorem C4_direct_involvement_sum (ts ts2 : List Teleport) (target : String)
    (hperm : ts.Perm ts2) :
    chainTeleportValue ts target
      = ((ts.filter fun t =>
          decide (CHAIN_ID_MAP t.sourceChain = some target ∨
            CHAIN_ID_MAP t.destChain = some target)).map
            fun t => t.amount / E18).sum ∧
    chainTeleportValue ts target = chainTeleportValue ts2 target := by
  refine ⟨chainTeleportValue_eq_sum ts target, ?_⟩
  rw [chainTeleportValue_eq_sum ts target, chainTeleportValue_eq_sum ts2 target]
  exact ((hperm.filter _).map _).sum_eq

/-- Witness for C4 at a concrete pair of permuted event lists. -/
theorem C4_witness :
    ([⟨"0xa", 3, 1, 10⟩, ⟨"0xb", 5, 56, 137⟩] : List Teleport).Perm
        [⟨"0xb", 5, 56, 137⟩, ⟨"0xa", 3, 1, 10⟩] ∧
    chainTeleportValue [⟨"0xa", 3, 1, 10⟩, ⟨"0xb", 5, 56, 137⟩] "ethereum"
      = chainTeleportValue [⟨"0xb", 5, 56, 137⟩, ⟨"0xa", 3, 1, 10⟩] "ethereum" := by
  have hperm : ([⟨"0xa", 3, 1, 10⟩, ⟨"0xb", 5, 56, 137⟩] : List Teleport).Perm
      [⟨"0xb", 5, 56, 137⟩, ⟨"0xa", 3, 1, 10⟩] :=
    List.Perm.swap _ _ _
  exact ⟨hperm, (C4_direct_involvement_sum _ _ "ethereum" hperm).2⟩

/-! ### C1: treatment of unmapped chain identifiers -/

/-- C1 counterexample: a chain stat with the unmapped id 999 contributes
its normalized `totalTransfersIn` to variant 1's total network value, and
a teleport event between the unmapped chains 999 and 998 contributes its
normalized amount to the total teleport value of both variants — so the
claim that unmapped records contribute to none of the estimator's sums is
false. -/
theorem C1_counterexample :
    CHAIN_ID_MAP 999 = none ∧ CHAIN_ID_MAP 998 = none ∧
    totalNetworkValue [⟨999, 2 * 10 ^ 18⟩] = 2 ∧
    totalNetworkValue [] = 0 ∧
    totalTeleportValue_v1 [⟨"0xa", 3 * 10 ^ 18, 999, 998⟩] = 3 ∧
    totalTeleportValue_v1 [] = 0 ∧
    totalTeleportValue_v2 [⟨"0xa", 3 * 10 ^ 18, 999, 998⟩] = 3 ∧
    totalTeleportValue_v2 [] = 0 := by
  have h18 : assetDecimals_v2 "0xa" = 18 := by decide
  refine ⟨rfl, rfl, ?_, rfl, ?_, rfl, ?_, rfl⟩
  · norm_num [totalNetworkValue, E18]
  · norm_num [totalTeleportValue_v1, E18]
  · norm_num [totalTeleportValue_v2, assetKeys, insertKey, groupAmount, h18]

/-- C1 amended: stats and events referencing unmapped chain ids are
excluded from variant 1's direct-involvement sum and from variant 2's
chain-transfer map (hence from its proportional numerator and
denominator), but an unmapped chain stat still adds its normalized
`totalTransfersIn` to variant 1's total network value, and a teleport
between unmapped chains still adds its normalized amount to variant 1's
total teleport value. -/
theorem C1_amended (ts : List Teleport) (t : Teleport) (stats : List ChainStat)
    (s : ChainStat) (target : String)
    (hsrc : CHAIN_ID_MAP t.sourceChain = none)
    (hdst : CHAIN_ID_MAP t.destChain = none)
    (hs : CHAIN_ID_MAP s.chainId = none) :
    chainTeleportValue (ts ++ [t]) target = chainTeleportValue ts target ∧
    buildChainTransferData (stats ++ [s]) = buildChainTransferData stats ∧
    totalNetworkTransfers (stats ++ [s]) = totalNetworkTransfers stats ∧
    totalNetworkValue (stats ++ [s])
      = totalNetworkValue stats + s.totalTransfersIn / E18 ∧
    totalTeleportValue_v1 (ts ++ [t])
      = totalTeleportValue_v1 ts + t.amount / E18 := by
  have hb : buildChainTransferData (stats ++ [s]) = buildChainTransferData stats := by
    simp [buildChainTransferData, List.foldl_append, hs]
  refine ⟨?_, hb, ?_, ?_, ?_⟩
  · simp [chainTeleportValue, List.foldl_append, hsrc, hdst]
  · simp [totalNetworkTransfers, hb]
  · simp [totalNetworkValue, List.foldl_append]
  · simp [totalTeleportValue_v1, List.foldl_append]

/-- Witness for C1 amended at a concrete unmapped stat and event. -/
theorem C1_amended_witness :
    CHAIN_ID_MAP 999 = none ∧ CHAIN_ID_MAP 998 = none ∧
    chainTeleportValue ([] ++ [⟨"0xa", 5, 999, 998⟩]) "ethereum"
      = chainTeleportValue [] "ethereum" ∧
    buildChainTransferData ([] ++ [⟨999, 7⟩]) = buildChainTransferData [] :=
  ⟨rfl, rfl, (C1_amended [] ⟨"0xa", 5, 999, 998⟩ [] ⟨999, 7⟩ "ethereum" rfl rfl rfl).1,
    (C1_amended [] ⟨"0xa", 5, 999, 998⟩ [] ⟨999, 7⟩ "ethereum" rfl rfl rfl).2.1⟩

/-! ### C6: failed fetch delegates to the fallback with no direct reports -/

/-- C6: whenever the fetch raises an exception or reports a non-success
status, both adapter variants convert it to an absent result, delegate to
the contract fallback for the same chain context, and issue zero direct
report calls. -/
theorem C6_error_fallback (ctx : ChainCtx) (r : FetchResult)
    (h : ∀ d, r ≠ FetchResult.success d) :
    getHyperbridgeTVL_v1 r = none ∧ getHyperbridgeTVL_v2 r = none ∧
    tvlAdapter_v1 ctx r = Outcome.fallback ∧
    tvlAdapter_v2 ctx r = Outcome.fallback ∧
    directCalls (tvlAdapter_v1 ctx r) = [] ∧
    directCalls (tvlAdapter_v2 ctx r) = [] := by
  cases r with
  | success d => exact absurd rfl (h d)
  | transportError => exact ⟨rfl, rfl, rfl, rfl, rfl, rfl⟩
  | httpError st => exact ⟨rfl, rfl, rfl, rfl, rfl, rfl⟩
  | graphqlErrors => exact ⟨rfl, rfl, rfl, rfl, rfl, rfl⟩

/-- Witness for C6 at a concrete transport error. -/
theorem C6_error_fallback_witness :
    (∀ d, FetchResult.transportError ≠ FetchResult.success d) ∧
    tvlAdapter_v1 ⟨"ethereum", some "uc", none, none, none⟩
        FetchResult.transportError = Outcome.fallback :=
  ⟨fun _ h => FetchResult.noConfusion h,
    (C6_error_fallback ⟨"ethereum", some "uc", none, none, none⟩
      FetchResult.transportError (fun _ h => FetchResult.noConfusion h)).2.2.1⟩

/-! ### C9: variant 2 reports nothing for a non-positive estimate -/

/-- C9: in variant 2, `addTokensToAPI` returns immediately on any
`tvlAmount ≤ 0` and issues zero `api.addToken` calls. -/
theorem C9_nonpositive_no_report (ctx : ChainCtx) (tvlAmount : ℚ)
    (h : tvlAmount ≤ 0) :
    addTokensToAPI_v2 ctx tvlAmount = [] := by
  simp [addTokensToAPI_v2, h]

/-- Witness for C9 at a concrete negative estimate. -/
theorem C9_nonpositive_no_report_witness :
    (-5 : ℚ) ≤ 0 ∧
    addTokensToAPI_v2 ⟨"ethereum", some "uc", some "ut", some "da", some "we"⟩ (-5) = [] :=
  ⟨by norm_num,
    C9_nonpositive_no_report ⟨"ethereum", some "uc", some "ut", some "da", some "we"⟩
      (-5) (by norm_num)⟩

/-! ### C10: the post-fetch computation is deterministic -/

/-- C10: for identical fetch results and identical chain contexts, both
variants issue the identical outcome — in particular the identical
sequence of report calls with identical token addresses and raw amounts.
The post-fetch computation is modelled as a total pure function of the
fetched data and the chain context, which is exactly the determinism
property: no other input influences the issued calls. -/
theorem C10_deterministic (ctx1 ctx2 : ChainCtx) (d1 d2 : Option FetchData)
    (hc : ctx1 = ctx2) (hd : d1 = d2) :
    calculateTVLFromAPI_v1 ctx1 d1 = calculateTVLFromAPI_v1 ctx2 d2 ∧
    calculateTVLFromAPI_v2 ctx1 d1 = calculateTVLFromAPI_v2 ctx2 d2 ∧
    directCalls (calculateTVLFromAPI_v1 ctx1 d1)
      = directCalls (calculateTVLFromAPI_v1 ctx2 d2) ∧
    directCalls (calculateTVLFromAPI_v2 ctx1 d1)
      = directCalls (calculateTVLFromAPI_v2 ctx2 d2) := by
  subst hc
  subst hd
  exact ⟨rfl, rfl, rfl, rfl⟩

/-- Witness for C10 at a concrete context and dataset. -/
theorem C10_deterministic_witness :
    calculateTVLFromAPI_v1 ⟨"ethereum", some "uc", none, none, none⟩
        (some ⟨[⟨1, 10 ^ 18⟩], [⟨"0xa", 10 ^ 18, 1, 10⟩]⟩)
      = calculateTVLFromAPI_v1 ⟨"ethereum", some "uc", none, none, none⟩
        (some ⟨[⟨1, 10 ^ 18⟩], [⟨"0xa", 10 ^ 18, 1, 10⟩]⟩) :=
  (C10_deterministic _ _ _ _ rfl rfl).1

/-! ### C3: proportional estimate and the V = 0 case -/

/-- C3 counterexample: with no chain stats at all the total network
volume V is 0, yet variant 1 does not delegate to the fallback — a direct
teleport-involvement sum of 200 (> 100) is reported directly. The claim
that the estimator always delegates to the Fallback Prober when V = 0 is
therefore false as stated. -/
theorem C3_counterexample :
    totalNetworkValue ([] : List ChainStat) = 0 ∧
    calculateTVLFromAPI_v1 ⟨"ethereum", some "uc", none, none, none⟩
        (some ⟨[], [⟨"0xa", 200 * 10 ^ 18, 1, 10⟩]⟩)
      = Outcome.report [("uc", 140000000)] := by
  have h1 : CHAIN_ID_MAP 1 = some "ethereum" := rfl
  have hctv : chainTeleportValue [⟨"0xa", 200 * 10 ^ 18, 1, 10⟩] "ethereum" = 200 := by
    norm_num [chainTeleportValue, h1, E18]
  refine ⟨rfl, ?_⟩
  simp only [calculateTVLFromAPI_v1]
  rw [hctv]
  rw [if_pos (by norm_num : (200 : ℚ) > 100)]
  norm_num [addTokensToAPI_v1, optCall]

/-- C3 amended: whenever V > 0 the proportional value equals
(v / V) × totalTeleportValue; the division by V is guarded by V > 0 in
both variants, and when V = 0 the estimator delegates to the Fallback
Prober — unconditionally in variant 2, and in variant 1 provided the
direct-involvement sum has not already exceeded the 100 threshold. -/
theorem C3_amended (ctx : ChainCtx) (d : FetchData) (stat : ChainStat) :
    (totalNetworkValue d.chainStats > 0 →
      chainProportionalValue_v1 d stat
        = (stat.totalTransfersIn / E18 / totalNetworkValue d.chainStats) *
            totalTeleportValue_v1 d.teleports) ∧
    (totalNetworkValue d.chainStats = 0 →
      chainTeleportValue d.teleports ctx.chain ≤ 100 →
      calculateTVLFromAPI_v1 ctx (some d) = Outcome.fallback) ∧
    (totalNetworkTransfers d.chainStats = 0 →
      calculateTVLFromAPI_v2 ctx (some d) = Outcome.fallback) := by
  refine ⟨?_, ?_, ?_⟩
  · intro h
    simp only [chainProportionalValue_v1, if_pos h]
    ring
  · intro hV hctv
    have hnot : ¬ (100 < chainTeleportValue d.teleports ctx.chain) := not_lt.mpr hctv
    have hpv : ∀ st : ChainStat, ¬ (1 < chainProportionalValue_v1 d st) := by
      intro st
      simp [chainProportionalValue_v1, hV]
    cases hfind : findChainStat d.chainStats ctx.chain with
    | none => simp [calculateTVLFromAPI_v1, hnot, hfind]
    | some st =>
      by_cases httv : totalTeleportValue_v1 d.teleports > 0
      · simp [calculateTVLFromAPI_v1, hnot, hfind, httv, hpv st]
      · simp [calculateTVLFromAPI_v1, hnot, hfind, httv]
  · intro hT
    have hc : ¬ (totalNetworkTransfers d.chainStats > 0 ∧
        lookupD (buildChainTransferData d.chainStats) ctx.chain 0 > 0) := by
      rintro ⟨hgt, _⟩
      rw [hT] at hgt
      exact lt_irrefl 0 hgt
    simp [calculateTVLFromAPI_v2, hc]

/-- Witness for C3 amended: V = 0 with a below-threshold direct sum makes
variant 1 fall back, and V = 0 makes variant 2 fall back. -/
theorem C3_amended_witness :
    totalNetworkValue ([] : List ChainStat) = 0 ∧
    chainTeleportValue [⟨"0xa", 50 * 10 ^ 18, 1, 10⟩] "ethereum" ≤ 100 ∧
    calculateTVLFromAPI_v1 ⟨"ethereum", some "uc", none, none, none⟩
        (some ⟨[], [⟨"0xa", 50 * 10 ^ 18, 1, 10⟩]⟩) = Outcome.fallback ∧
    totalNetworkTransfers ([] : List ChainStat) = 0 ∧
    calculateTVLFromAPI_v2 ⟨"ethereum", some "uc", none, none, none⟩
        (some ⟨[], [⟨"0xa", 50 * 10 ^ 18, 1, 10⟩]⟩) = Outcome.fallback := by
  have h1 : CHAIN_ID_MAP 1 = some "ethereum" := rfl
  have hctv : chainTeleportValue [⟨"0xa", 50 * 10 ^ 18, 1, 10⟩] "ethereum" = 50 := by
    norm_num [chainTeleportValue, h1, E18]
  refine ⟨rfl, by rw [hctv]; norm_num, ?_, rfl, ?_⟩
  · exact (C3_amended ⟨"ethereum", some "uc", none, none, none⟩
      ⟨[], [⟨"0xa", 50 * 10 ^ 18, 1, 10⟩]⟩ ⟨0, 0⟩).2.1 rfl (by rw [hctv]; norm_num)
  · exact (C3_amended ⟨"ethereum", some "uc", none, none, none⟩
      ⟨[], [⟨"0xa", 50 * 10 ^ 18, 1, 10⟩]⟩ ⟨0, 0⟩).2.2 rfl

/-! ### C7: the direct-sum threshold in the two variants -/

/-- C7 counterexample: variant 2 does not use the direct-involvement sum
at all. Here the requested chain is directly involved in a 500-unit
teleport, yet variant 2 delegates to the contract fallback because it
computes only the proportional distribution (and there is no chain-stat
data), refuting the claim that the second variant uses the direct sum
with no threshold. -/
theorem C7_counterexample :
    chainTeleportValue [⟨"0xa", 500 * 10 ^ 18, 1, 10⟩] "ethereum" = 500 ∧
    calculateTVLFromAPI_v2 ⟨"ethereum", some "uc", none, none, none⟩
        (some ⟨[], [⟨"0xa", 500 * 10 ^ 18, 1, 10⟩]⟩) = Outcome.fallback := by
  constructor
  · have h1 : CHAIN_ID_MAP 1 = some "ethereum" := rfl
    norm_num [chainTeleportValue, h1, E18]
  · simp [calculateTVLFromAPI_v2, totalNetworkTransfers, buildChainTransferData, lookupD]

/-- C7 amended: variant 1 uses the direct-involvement sum exactly when it
exceeds the fixed 100-unit threshold, and falls through to the Fallback
Prober when the sum is at most 100 and no usable proportional data is
available; variant 2 computes no direct-involvement sum at all — it
either uses the proportional distribution or delegates to the fallback. -/
theorem C7_amended (ctx : ChainCtx) (d : FetchData) :
    (100 < chainTeleportValue d.teleports ctx.chain →
      calculateTVLFromAPI_v1 ctx (some d)
        = Outcome.report (addTokensToAPI_v1 ctx
            (chainTeleportValue d.teleports ctx.chain))) ∧
    (chainTeleportValue d.teleports ctx.chain ≤ 100 →
      (∀ stat, findChainStat d.chainStats ctx.chain = some stat →
        totalTeleportValue_v1 d.teleports > 0 →
        chainProportionalValue_v1 d stat ≤ 1) →
      calculateTVLFromAPI_v1 ctx (some d) = Outcome.fallback) ∧
    (calculateTVLFromAPI_v2 ctx (some d) = Outcome.fallback ∨
      calculateTVLFromAPI_v2 ctx (some d)
        = Outcome.report (addTokensToAPI_v2 ctx
            (totalTeleportValue_v2 d.teleports *
              (lookupD (buildChainTransferData d.chainStats) ctx.chain 0 /
                totalNetworkTransfers d.chainStats)))) := by
  refine ⟨?_, ?_, ?_⟩
  · intro h
    simp only [calculateTVLFromAPI_v1]
    rw [if_pos h]
  · intro hle hnp
    have hnot : ¬ (100 < chainTeleportValue d.teleports ctx.chain) := not_lt.mpr hle
    cases hfind : findChainStat d.chainStats ctx.chain with
    | none => simp [calculateTVLFromAPI_v1, hnot, hfind]
    | some st =>
      by_cases httv : totalTeleportValue_v1 d.teleports > 0
      · have hpv : ¬ (1 < chainProportionalValue_v1 d st) :=
          not_lt.mpr (hnp st hfind httv)
        simp [calculateTVLFromAPI_v1, hnot, hfind, httv, hpv]
      · simp [calculateTVLFromAPI_v1, hnot, hfind, httv]
  · by_cases hc : totalNetworkTransfers d.chainStats > 0 ∧
        lookupD (buildChainTransferData d.chainStats) ctx.chain 0 > 0
    · right
      simp [calculateTVLFromAPI_v2, hc]
    · left
      simp [calculateTVLFromAPI_v2, hc]

/-- Witness for C7 amended: a 50-unit direct-involvement sum (below the
100 threshold) with no proportional data makes variant 1 fall back. -/
theorem C7_amended_witness :
    chainTeleportValue [⟨"0xa", 50 * 10 ^ 18, 1, 10⟩] "ethereum" ≤ 100 ∧
    calculateTVLFromAPI_v1 ⟨"ethereum", some "uc", none, none, none⟩
        (some ⟨[], [⟨"0xa", 50 * 10 ^ 18, 1, 10⟩]⟩) = Outcome.fallback := by
  have h1 : CHAIN_ID_MAP 1 = some "ethereum" := rfl
  have hctv : chainTeleportValue [⟨"0xa", 50 * 10 ^ 18, 1, 10⟩] "ethereum" = 50 := by
    norm_num [chainTeleportValue, h1, E18]
  refine ⟨by rw [hctv]; norm_num, ?_⟩
  refine (C7_amended ⟨"ethereum", some "uc", none, none, none⟩
      ⟨[], [⟨"0xa", 50 * 10 ^ 18, 1, 10⟩]⟩).2.1 (by rw [hctv]; norm_num) ?_
  intro st hfind httv
  simp [findChainStat] at hfind

/-! ### Asset-grouping lemmas for variant 2's total teleport value -/

theorem groupAmount_eq_sum (ts : List Teleport) (a : String) :
    groupAmount ts a = ((ts.filter fun t => t.assetId = a).map fun t => t.amount).sum := by
  unfold groupAmount
  rw [foldl_add_eq_sum, zero_add]

theorem assetKeys_append (ts : List Teleport) (t : Teleport) :
    assetKeys (ts ++ [t]) = insertKey (assetKeys ts) t.assetId := by
  simp [assetKeys, List.foldl_append]

theorem mem_insertKey (ks : List String) (k x : String) :
    x ∈ insertKey ks k ↔ x ∈ ks ∨ x = k := by
  unfold insertKey
  split
  next h =>
    constructor
    · exact Or.inl
    · rintro (hx | rfl)
      · exact hx
      · exact h
  next h => simp [List.mem_append]

theorem nodup_insertKey (ks : List String) (k : String) (h : ks.Nodup) :
    (insertKey ks k).Nodup := by
  unfold insertKey
  split
  next => exact h
  next hk =>
    rw [List.nodup_append]
    refine ⟨h, List.nodup_singleton k, ?_⟩
    intro x hx hxk
    rw [List.mem_singleton] at hxk
    exact hk (hxk ▸ hx)

theorem nodup_assetKeys_aux (ts : List Teleport) (ks : List String) (h : ks.Nodup) :
    (ts.foldl (fun ks t => insertKey ks t.assetId) ks).Nodup := by
  induction ts generalizing ks with
  | nil => exact h
  | cons t ts ih => exact ih _ (nodup_insertKey ks t.assetId h)

theorem nodup_assetKeys (ts : List Teleport) : (assetKeys ts).Nodup :=
  nodup_assetKeys_aux ts [] List.nodup_nil

theorem mem_assetKeys_aux (ts : List Teleport) (ks : List String) (x : String) :
    x ∈ ts.foldl (fun ks t => insertKey ks t.assetId) ks ↔
      x ∈ ks ∨ ∃ t ∈ ts, t.assetId = x := by
  induction ts generalizing ks with
  | nil => simp
  | cons t ts ih =>
    rw [List.foldl_cons, ih, mem_insertKey]
    constructor
    · rintro ((hk | he) | ⟨u, hu, rfl⟩)
      · exact Or.inl hk
      · exact Or.inr ⟨t, List.mem_cons_self t ts, he.symm⟩
      · exact Or.inr ⟨u, List.mem_cons_of_mem t hu, rfl⟩
    · rintro (hk | ⟨u, hu, rfl⟩)
      · exact Or.inl (Or.inl hk)
      · rcases List.mem_cons.mp hu with rfl | hu2
        · exact Or.inl (Or.inr rfl)
        · exact Or.inr ⟨u, hu2, rfl⟩

theorem mem_assetKeys (ts : List Teleport) (x : String) :
    x ∈ assetKeys ts ↔ ∃ t ∈ ts, t.assetId = x := by
  rw [assetKeys, mem_assetKeys_aux]
  simp

theorem groupAmount_eq_zero (ts : List Teleport) (a : String)
    (h : a ∉ assetKeys ts) : groupAmount ts a = 0 := by
  rw [groupAmount_eq_sum]
  have hnil : ts.filter (fun t => t.assetId = a) = [] := by
    rw [List.filter_eq_nil_iff]
    intro t ht hta
    exact h ((mem_assetKeys ts a).mpr ⟨t, ht, by simpa using hta⟩)
  rw [hnil]
  rfl

theorem groupAmount_append (ts : List Teleport) (t : Teleport) (a : String) :
    groupAmount (ts ++ [t]) a
      = groupAmount ts a + (if t.assetId = a then t.amount else 0) := by
  rw [groupAmount_eq_sum, groupAmount_eq_sum, List.filter_append]
  by_cases h : t.assetId = a
  · simp [h]
  · simp [h]

theorem sum_map_add (l : List String) (f g : String → ℚ) :
    (l.map fun a => f a + g a).sum = (l.map f).sum + (l.map g).sum := by
  induction l with
  | nil => simp
  | cons x xs ih =>
    simp only [List.map_cons, List.sum_cons, ih]
    ring

theorem sum_map_single (ks : List String) (k : String) (f : String → ℚ)
    (hn : ks.Nodup) (hk : k ∈ ks) :
    (ks.map fun a => if k = a then f a else 0).sum = f k := by
  induction ks with
  | nil => cases hk
  | cons b bs ih =>
    rcases List.mem_cons.mp hk with rfl | hb
    · simp only [List.map_cons, List.sum_cons, if_pos rfl]
      have hnb : k ∉ bs := (List.nodup_cons.mp hn).1
      have hz : (bs.map fun a => if k = a then f a else 0).sum = 0 := by
        apply List.sum_eq_zero
        intro q hq
        rcases List.mem_map.mp hq with ⟨a, ha, rfl⟩
        rw [if_neg]
        intro hka
        exact hnb (hka ▸ ha)
      rw [hz, add_zero]
      simp
    · have hkb : ¬ (k = b) := by
        intro h2
        exact (List.nodup_cons.mp hn).1 (h2 ▸ hb)
      simp only [List.map_cons, List.sum_cons, if_neg hkb]
      rw [ih (List.nodup_cons.mp hn).2 hb, zero_add]

theorem ttv2_eq_keys_sum (ts : List Teleport) :
    totalTeleportValue_v2 ts
      = ((assetKeys ts).map fun a => groupAmount ts a / 10 ^ assetDecimals_v2 a).sum := by
  unfold totalTeleportValue_v2
  rw [foldl_add_eq_sum, zero_add]

theorem totalTeleportValue_v2_eq_sum (ts : List Teleport) :
    totalTeleportValue_v2 ts
      = (ts.map fun t => t.amount / 10 ^ assetDecimals_v2 t.assetId).sum := by
  induction ts using List.reverseRecOn with
  | nil => rfl
  | append_singleton ts t ih =>
    have hnd := nodup_assetKeys ts
    have hpt : ∀ a : String, groupAmount (ts ++ [t]) a / (10:ℚ) ^ assetDecimals_v2 a
        = groupAmount ts a / 10 ^ assetDecimals_v2 a
          + (if t.assetId = a then t.amount / 10 ^ assetDecimals_v2 a else 0) := by
      intro a
      rw [groupAmount_append, add_div]
      congr 1
      split
      · rfl
      · exact zero_div _
    rw [ttv2_eq_keys_sum, assetKeys_append, List.map_append, List.sum_append]
    by_cases hk : t.assetId ∈ assetKeys ts
    · have hik : insertKey (assetKeys ts) t.assetId = assetKeys ts := by
        simp [insertKey, hk]
      rw [hik]
      simp only [hpt]
      rw [sum_map_add, sum_map_single (assetKeys ts) t.assetId _ hnd hk,
        ← ttv2_eq_keys_sum, ih]
      simp
    · have hik : insertKey (assetKeys ts) t.assetId = assetKeys ts ++ [t.assetId] := by
        simp [insertKey, hk]
      rw [hik, List.map_append, List.sum_append]
      simp only [hpt]
      rw [sum_map_add]
      have hz : ((assetKeys ts).map fun a =>
          if t.assetId = a then t.amount / (10:ℚ) ^ assetDecimals_v2 a else 0).sum = 0 := by
        apply List.sum_eq_zero
        intro q hq
        rcases List.mem_map.mp hq with ⟨a, ha, rfl⟩
        rw [if_neg]
        intro h2
        exact hk (h2 ▸ ha)
      have hg0 : groupAmount ts t.assetId = 0 := groupAmount_eq_zero ts t.assetId hk
      rw [hz, add_zero, ← ttv2_eq_keys_sum, ih]
      simp [hg0]

/-! ### C2: normalization of teleport amounts -/

/-- C2 counterexample: in variant 2 a teleport whose asset id contains
"USDC" is normalized by 10^6, not by 10^18 — its contribution to the
total teleport value is 10^12 times the uniformly-normalized amount of 1.
The claim that both variants divide by 10^18 uniformly is false. -/
theorem C2_counterexample :
    totalTeleportValue_v2 [⟨"USDC", 10 ^ 18, 1, 10⟩] = 10 ^ 12 ∧
    totalTeleportValue_v1 [⟨"USDC", 10 ^ 18, 1, 10⟩] = 1 ∧
    ((10 : ℚ) ^ 12 = 1 → False) := by
  have h6 : assetDecimals_v2 "USDC" = 6 := by decide
  refine ⟨?_, ?_, by norm_num⟩
  · norm_num [totalTeleportValue_v2, assetKeys, insertKey, groupAmount, h6]
  · norm_num [totalTeleportValue_v1, E18]

/-- C2 amended: variant 1 normalizes every teleport amount by 10^18
uniformly, in both the total teleport value and the direct-involvement
sum; variant 2 instead normalizes each event's amount by 10^6 when its
asset id contains "USDC" or "USDT" as a substring and by 10^18 otherwise
(so the 6-decimal normalization applies to USDC/USDT-keyed assets). -/
theorem C2_amended (ts : List Teleport) (t : Teleport) (target : String) :
    totalTeleportValue_v1 (ts ++ [t]) = totalTeleportValue_v1 ts + t.amount / E18 ∧
    chainTeleportValue (ts ++ [t]) target
      = chainTeleportValue ts target
        + (if CHAIN_ID_MAP t.sourceChain = some target ∨
              CHAIN_ID_MAP t.destChain = some target then t.amount / E18 else 0) ∧
    totalTeleportValue_v2 ts
      = (ts.map fun u => u.amount / 10 ^ assetDecimals_v2 u.assetId).sum ∧
    assetDecimals_v2 "USDC" = 6 ∧ assetDecimals_v2 "USDT" = 6 ∧
    assetDecimals_v2
      "0x2c39e61e26a9f54b13049db72ed462371c4675161ad800538eefbb25e5f5531f" = 18 := by
  refine ⟨?_, ?_, totalTeleportValue_v2_eq_sum ts, by decide, by decide, by decide⟩
  · simp [totalTeleportValue_v1, List.foldl_append]
  · by_cases h : CHAIN_ID_MAP t.sourceChain = some target ∨
        CHAIN_ID_MAP t.destChain = some target
    · simp [chainTeleportValue, List.foldl_append, h]
    · simp [chainTeleportValue, List.foldl_append, h]

/-! ### C5: allocator amounts are floored, non-negative raw integers -/

/-- A call issued by one optional-address report block carries the given
raw amount. -/
theorem mem_optCall_snd {addr : Option String} {amt : Int} {c : String × Int}
    (h : c ∈ optCall addr amt) : c.2 = amt := by
  cases addr with
  | none => simp [optCall] at h
  | some a =>
    simp [optCall] at h
    rw [h]

/-- C5: for every non-negative USD estimate, every raw amount reported by
either variant's allocator is `Int.floor (estimate * pct * 10 ^ decimals)`
for one of the fixed (pct, decimals) pairs of that variant, hence a
non-negative integer never exceeding the exact product (floored, never
rounded up); and the concrete example: estimate 1000 with USDC present at
70% yields the raw amount 700000000. -/
theorem C5_floor_allocation (ctx : ChainCtx) (usd : ℚ) (h : 0 ≤ usd) :
    (∀ call ∈ addTokensToAPI_v1 ctx usd, ∃ pd ∈ allocationTable_v1,
        call.2 = Int.floor (usd * pd.1 * 10 ^ pd.2) ∧ 0 ≤ call.2 ∧
        (call.2 : ℚ) ≤ usd * pd.1 * 10 ^ pd.2) ∧
    (∀ call ∈ addTokensToAPI_v2 ctx usd, ∃ pd ∈ allocationTable_v2,
        call.2 = Int.floor (usd * pd.1 * 10 ^ pd.2) ∧ 0 ≤ call.2 ∧
        (call.2 : ℚ) ≤ usd * pd.1 * 10 ^ pd.2) ∧
    addTokensToAPI_v1 ⟨"ethereum", some "usdc-addr", none, none, none⟩ 1000
      = [("usdc-addr", 700000000)] := by
  have hspec : ∀ (p : ℚ) (e : ℕ), 0 ≤ p →
      0 ≤ Int.floor (usd * p * 10 ^ e) ∧
      (Int.floor (usd * p * 10 ^ e) : ℚ) ≤ usd * p * 10 ^ e := by
    intro p e hp
    refine ⟨Int.floor_nonneg.mpr ?_, Int.floor_le _⟩
    exact mul_nonneg (mul_nonneg h hp) (by positivity)
  refine ⟨?_, ?_, ?_⟩
  · intro call hcall
    simp only [addTokensToAPI_v1, List.append_assoc, List.mem_append] at hcall
    rcases hcall with hm | hm | hm | hm
    · refine ⟨(7 / 10, 6), by simp [allocationTable_v1], mem_optCall_snd hm, ?_, ?_⟩
      · rw [mem_optCall_snd hm]
        exact (hspec (7 / 10) 6 (by norm_num)).1
      · rw [mem_optCall_snd hm]
        exact (hspec (7 / 10) 6 (by norm_num)).2
    · refine ⟨(2 / 10, 6), by simp [allocationTable_v1], mem_optCall_snd hm, ?_, ?_⟩
      · rw [mem_optCall_snd hm]
        exact (hspec (2 / 10) 6 (by norm_num)).1
      · rw [mem_optCall_snd hm]
        exact (hspec (2 / 10) 6 (by norm_num)).2
    · refine ⟨(1 / 10, 18), by simp [allocationTable_v1], mem_optCall_snd hm, ?_, ?_⟩
      · rw [mem_optCall_snd hm]
        exact (hspec (1 / 10) 18 (by norm_num)).1
      · rw [mem_optCall_snd hm]
        exact (hspec (1 / 10) 18 (by norm_num)).2
    · have harg : usd / 2500 * (10 : ℚ) ^ 18 = usd * (1 / 2500) * 10 ^ 18 := by ring
      by_cases hif : ctx.usdc = none ∧ ctx.usdt = none ∧ ctx.dai = none
      · rw [if_pos hif] at hm
        refine ⟨(1 / 2500, 18), by simp [allocationTable_v1], ?_, ?_, ?_⟩
        · rw [mem_optCall_snd hm, harg]
        · rw [mem_optCall_snd hm]
          rw [show Int.floor (usd / 2500 * (10 : ℚ) ^ 18)
              = Int.floor (usd * (1 / 2500) * 10 ^ 18) from by rw [harg]]
          exact (hspec (1 / 2500) 18 (by norm_num)).1
        · rw [mem_optCall_snd hm]
          rw [show Int.floor (usd / 2500 * (10 : ℚ) ^ 18)
              = Int.floor (usd * (1 / 2500) * 10 ^ 18) from by rw [harg]]
          exact (hspec (1 / 2500) 18 (by norm_num)).2
      · rw [if_neg hif] at hm
        simp at hm
  · intro call hcall
    by_cases h0 : usd ≤ 0
    · rw [addTokensToAPI_v2, if_pos h0] at hcall
      simp at hcall
    · rw [addTokensToAPI_v2, if_neg h0] at hcall
      cases hu : ctx.usdc with
      | some a =>
        rw [hu] at hcall
        simp only [List.mem_singleton] at hcall
        refine ⟨(1, 6), by simp [allocationTable_v2], ?_, ?_, ?_⟩
        · rw [hcall]
          rw [show usd * 1 * (10 : ℚ) ^ 6 = usd * 10 ^ 6 from by ring]
        · rw [hcall]
          simp only
          rw [show usd * (10 : ℚ) ^ 6 = usd * 1 * 10 ^ 6 from by ring]
          exact (hspec 1 6 (by norm_num)).1
        · rw [hcall]
          simp only
          rw [show usd * (10 : ℚ) ^ 6 = usd * 1 * 10 ^ 6 from by ring]
          exact (hspec 1 6 (by norm_num)).2
      | none =>
        rw [hu] at hcall
        cases ht : ctx.usdt with
        | some a =>
          rw [ht] at hcall
          simp only [List.mem_singleton] at hcall
          refine ⟨(1, 6), by simp [allocationTable_v2], ?_, ?_, ?_⟩
          · rw [hcall]
            rw [show usd * 1 * (10 : ℚ) ^ 6 = usd * 10 ^ 6 from by ring]
          · rw [hcall]
            simp only
            rw [show usd * (10 : ℚ) ^ 6 = usd * 1 * 10 ^ 6 from by ring]
            exact (hspec 1 6 (by norm_num)).1
          · rw [hcall]
            simp only
            rw [show usd * (10 : ℚ) ^ 6 = usd * 1 * 10 ^ 6 from by ring]
            exact (hspec 1 6 (by norm_num)).2
        | none =>
          rw [ht] at hcall
          cases hdai : ctx.dai with
          | some a =>
            rw [hdai] at hcall
            simp only [List.mem_singleton] at hcall
            refine ⟨(1, 18), by simp [allocationTable_v2], ?_, ?_, ?_⟩
            · rw [hcall]
              rw [show usd * 1 * (10 : ℚ) ^ 18 = usd * 10 ^ 18 from by ring]
            · rw [hcall]
              simp only
              rw [show usd * (10 : ℚ) ^ 18 = usd * 1 * 10 ^ 18 from by ring]
              exact (hspec 1 18 (by norm_num)).1
            · rw [hcall]
              simp only
              rw [show usd * (10 : ℚ) ^ 18 = usd * 1 * 10 ^ 18 from by ring]
              exact (hspec 1 18 (by norm_num)).2
          | none =>
            rw [hdai] at hcall
            simp at hcall
  · norm_num [addTokensToAPI_v1, optCall]

/-- Witness for C5 at the concrete 1000-unit estimate with USDC present. -/
theorem C5_floor_allocation_witness :
    0 ≤ (1000 : ℚ) ∧
    addTokensToAPI_v1 ⟨"ethereum", some "usdc-addr", none, none, none⟩ 1000
      = [("usdc-addr", 700000000)] :=
  ⟨by norm_num,
    (C5_floor_allocation ⟨"ethereum", some "usdc-addr", none, none, none⟩ 1000
      (by norm_num)).2.2⟩

/-! ### C8: the allocation percentages never exceed 100% -/

/-- USD value reported through the USDC slot is at most 70% of the
estimate. -/
theorem seg_bound_usdc (ctx : ChainCtx) (usd : ℚ) (h : 0 ≤ usd) :
    ((optCall ctx.usdc (Int.floor (usd * (7 / 10) * 10 ^ 6))).map (tokenUSD ctx)).sum
      ≤ usd * (7 / 10) := by
  cases hc : ctx.usdc with
  | none =>
    simp only [hc, optCall, List.map_nil, List.sum_nil]
    exact mul_nonneg h (by norm_num)
  | some a =>
    simp only [optCall, List.map_cons, List.map_nil, List.sum_cons, List.sum_nil, add_zero]
    have hv : tokenUSD ctx (a, Int.floor (usd * (7 / 10) * 10 ^ 6))
        = (Int.floor (usd * (7 / 10) * 10 ^ 6) : ℚ) / 10 ^ 6 := by
      simp [tokenUSD, hc]
    rw [hv, div_le_iff₀ (by norm_num : (0 : ℚ) < 10 ^ 6)]
    have hfl := Int.floor_le (usd * (7 / 10) * 10 ^ 6)
    linarith

/-- USD value reported through the USDT slot is at most 20% of the
estimate. -/
theorem seg_bound_usdt (ctx : ChainCtx) (usd : ℚ) (h : 0 ≤ usd)
    (hne : ctx.usdt.isSome → ctx.usdt ≠ ctx.usdc) :
    ((optCall ctx.usdt (Int.floor (usd * (2 / 10) * 10 ^ 6))).map (tokenUSD ctx)).sum
      ≤ usd * (2 / 10) := by
  cases hc : ctx.usdt with
  | none =>
    simp only [hc, optCall, List.map_nil, List.sum_nil]
    exact mul_nonneg h (by norm_num)
  | some a =>
    have hnu : ¬ (ctx.usdc = some a) := by
      intro hu
      exact hne (by simp [hc]) (by rw [hc, hu])
    simp only [optCall, List.map_cons, List.map_nil, List.sum_cons, List.sum_nil, add_zero]
    have hv : tokenUSD ctx (a, Int.floor (usd * (2 / 10) * 10 ^ 6))
        = (Int.floor (usd * (2 / 10) * 10 ^ 6) : ℚ) / 10 ^ 6 := by
      simp [tokenUSD, hc, hnu]
    rw [hv, div_le_iff₀ (by norm_num : (0 : ℚ) < 10 ^ 6)]
    have hfl := Int.floor_le (usd * (2 / 10) * 10 ^ 6)
    linarith

/-- USD value reported through the DAI slot is at most 10% of the
estimate. -/
theorem seg_bound_dai (ctx : ChainCtx) (usd : ℚ) (h : 0 ≤ usd)
    (hne1 : ctx.dai.isSome → ctx.dai ≠ ctx.usdc)
    (hne2 : ctx.dai.isSome → ctx.dai ≠ ctx.usdt) :
    ((optCall ctx.dai (Int.floor (usd * (1 / 10) * 10 ^ 18))).map (tokenUSD ctx)).sum
      ≤ usd * (1 / 10) := by
  cases hc : ctx.dai with
  | none =>
    simp only [hc, optCall, List.map_nil, List.sum_nil]
    exact mul_nonneg h (by norm_num)
  | some a =>
    have hnu : ¬ (ctx.usdc = some a) := by
      intro hu
      exact hne1 (by simp [hc]) (by rw [hc, hu])
    have hnt : ¬ (ctx.usdt = some a) := by
      intro hu
      exact hne2 (by simp [hc]) (by rw [hc, hu])
    simp only [optCall, List.map_cons, List.map_nil, List.sum_cons, List.sum_nil, add_zero]
    have hv : tokenUSD ctx (a, Int.floor (usd * (1 / 10) * 10 ^ 18))
        = (Int.floor (usd * (1 / 10) * 10 ^ 18) : ℚ) / 10 ^ 18 := by
      simp [tokenUSD, hc, hnu, hnt]
    rw [hv, div_le_iff₀ (by norm_num : (0 : ℚ) < 10 ^ 18)]
    have hfl := Int.floor_le (usd * (1 / 10) * 10 ^ 18)
    linarith

/-- USD value reported through the WETH branch (at the hardcoded 2500
USD/ETH price) is at most 100% of the estimate. -/
theorem seg_bound_weth (ctx : ChainCtx) (usd : ℚ) (h : 0 ≤ usd)
    (hu : ctx.usdc = none) (ht : ctx.usdt = none) (hdai : ctx.dai = none) :
    ((optCall ctx.weth (Int.floor (usd / 2500 * 10 ^ 18))).map (tokenUSD ctx)).sum
      ≤ usd := by
  cases hw : ctx.weth with
  | none =>
    simp only [hw, optCall, List.map_nil, List.sum_nil]
    exact h
  | some a =>
    simp only [optCall, List.map_cons, List.map_nil, List.sum_cons, List.sum_nil, add_zero]
    have hv : tokenUSD ctx (a, Int.floor (usd / 2500 * 10 ^ 18))
        = (Int.floor (usd / 2500 * 10 ^ 18) : ℚ) / 10 ^ 18 * 2500 := by
      simp [tokenUSD, hu, ht, hdai, hw]
    rw [hv, div_mul_eq_mul_div, div_le_iff₀ (by norm_num : (0 : ℚ) < 10 ^ 18)]
    have hfl := Int.floor_le (usd / 2500 * 10 ^ 18)
    linarith

/-- C8: for every non-negative estimate, the total USD value represented
by the calls variant 1's allocator issues never exceeds the estimate
(the applied percentages sum to at most 100%); when at least one of the
three stablecoins exists the calls are exactly the 70/20/10 stablecoin
allocations, and the single 100% WETH allocation is issued only when none
of the three stablecoins exist. -/
theorem C8_allocation_bound (ctx : ChainCtx) (usd : ℚ) (h : 0 ≤ usd)
    (hdist : ctxAddrsDistinct ctx) :
    ((addTokensToAPI_v1 ctx usd).map (tokenUSD ctx)).sum ≤ usd ∧
    (¬ (ctx.usdc = none ∧ ctx.usdt = none ∧ ctx.dai = none) →
      addTokensToAPI_v1 ctx usd
        = optCall ctx.usdc (Int.floor (usd * (7 / 10) * 10 ^ 6)) ++
          optCall ctx.usdt (Int.floor (usd * (2 / 10) * 10 ^ 6)) ++
          optCall ctx.dai (Int.floor (usd * (1 / 10) * 10 ^ 18))) ∧
    ((ctx.usdc = none ∧ ctx.usdt = none ∧ ctx.dai = none) →
      addTokensToAPI_v1 ctx usd
        = optCall ctx.weth (Int.floor (usd / 2500 * 10 ^ 18))) := by
  obtain ⟨hd1, hd2, hd3⟩ := hdist
  refine ⟨?_, ?_, ?_⟩
  · by_cases hstable : ctx.usdc = none ∧ ctx.usdt = none ∧ ctx.dai = none
    · obtain ⟨h1, h2, h3⟩ := hstable
      simp only [addTokensToAPI_v1, h1, h2, h3, optCall, List.nil_append, if_pos
        (⟨rfl, rfl, rfl⟩ : (none : Option String) = none ∧ (none : Option String) = none ∧
          (none : Option String) = none)]
      exact seg_bound_weth ctx usd h h1 h2 h3
    · simp only [addTokensToAPI_v1, if_neg hstable, List.append_nil]
      rw [List.map_append, List.map_append, List.sum_append, List.sum_append]
      have b1 := seg_bound_usdc ctx usd h
      have b2 := seg_bound_usdt ctx usd h hd1
      have b3 := seg_bound_dai ctx usd h hd2 hd3
      linarith
  · intro hns
    simp [addTokensToAPI_v1, if_neg hns]
  · rintro ⟨h1, h2, h3⟩
    simp [addTokensToAPI_v1, h1, h2, h3, optCall]

/-- Witness for C8 at a concrete context holding all four tokens. -/
theorem C8_allocation_bound_witness :
    0 ≤ (1000 : ℚ) ∧
    ctxAddrsDistinct ⟨"ethereum", some "A", some "B", some "C", some "D"⟩ ∧
    ((addTokensToAPI_v1 ⟨"ethereum", some "A", some "B", some "C", some "D"⟩ 1000).map
        (tokenUSD ⟨"ethereum", some "A", some "B", some "C", some "D"⟩)).sum ≤ 1000 :=
  ⟨by norm_num, by decide,
    (C8_allocation_bound ⟨"ethereum", some "A", some "B", some "C", some "D"⟩ 1000
      (by norm_num) (by decide)).1⟩
